import Mathlib

/-!
Verification of the VBAN audio receiver demo (esp32-p4-nano-vban-recv-demo).

This file embeds the protocol decoding logic of `main/vban.c`, the mirrored
ring buffer of `main/circular_buffer.c`, and the chunk-handoff pipeline of
`main/main.c` as Lean definitions, and proves the specification's claims
about them.  Machine integers are modelled as `Nat` (with explicit `% 2^32`
where 32-bit wraparound matters); C byte buffers are modelled as `List Nat`
of byte values, and the ring buffer's backing store as a function
`Nat → Nat` over backing-store offsets.
-/

namespace VbanDemo

/-! ## Constants from `main/vban.h` -/

def VBAN_DEFAULT_PORT : Nat := 6980

def VBAN_HEADER_SIZE : Nat := 28

def VBAN_MAX_PAYLOAD_SIZE : Nat := 1436

def VBAN_STREAM_NAME_MAX_LEN : Nat := 16

def VBAN_MAGIC_NUMBER : Nat := 0x4E414256

def VBAN_SUBPROTOCOL_AUDIO : Nat := 0x00

def VBAN_CODEC_PCM : Nat := 0x00

def VBAN_SR_INDEX_MASK : Nat := 0x1F

def VBAN_SUBPROTOCOL_MASK : Nat := 0xE0

def VBAN_SUBPROTOCOL_SHIFT : Nat := 5

def VBAN_DATATYPE_MASK : Nat := 0x07

def VBAN_CODEC_MASK : Nat := 0xF0

def VBAN_CODEC_SHIFT : Nat := 4

/-- `VBAN_SR_MAX_INDEX` is the final enumerator of `vban_sample_rate_index_t`:
21 defined sample rates plus 11 reserved entries make its value 32. -/
def VBAN_SR_MAX_INDEX : Nat := 32

/-- Highest defined sample-rate index (`VBAN_SR_705600`). -/
def VBAN_SR_705600 : Nat := 20

/-! ## Sample-rate and data-type tables from `main/vban.c` -/

/-- The static LUT `VBAN_SAMPLE_RATES_LUT[VBAN_SR_MAX_INDEX]`: 21 initializers,
the remaining 11 entries are zero-initialized as in any C static array. -/
def VBAN_SAMPLE_RATES_LUT : List Nat :=
  [6000, 12000, 24000, 48000, 96000, 192000, 384000, 8000, 16000, 32000, 64000,
   128000, 256000, 512000, 11025, 22050, 44100, 88200, 176400, 352800, 705600,
   0, 0, 0, 0, 0, 0, 0, 0, 0, 0, 0]

/-- `vban_get_data_type_size`: byte size of one sample component per data type. -/
def vban_get_data_type_size (data_type : Nat) : Nat :=
  match data_type with
  | 0 => 1  -- VBAN_DATATYPE_UINT8
  | 1 => 2  -- VBAN_DATATYPE_INT16
  | 2 => 3  -- VBAN_DATATYPE_INT24
  | 3 => 4  -- VBAN_DATATYPE_INT32
  | 4 => 4  -- VBAN_DATATYPE_FLOAT32
  | 5 => 8  -- VBAN_DATATYPE_FLOAT64
  | _ => 0  -- VBAN_DATATYPE_INT12 / VBAN_DATATYPE_INT10 / invalid

/-- `vban_get_sr_from_index`: LUT lookup guarded by
`sr_idx < VBAN_SR_MAX_INDEX && sr_idx <= VBAN_SR_705600`. -/
def vban_get_sr_from_index (sr_idx : Nat) : Nat :=
  if sr_idx < VBAN_SR_MAX_INDEX ∧ sr_idx ≤ VBAN_SR_705600 then
    VBAN_SAMPLE_RATES_LUT.getD sr_idx 0
  else 0

/-- `vban_get_index_from_sr`: linear scan `for (i = 0; i <= VBAN_SR_705600; ++i)`
returning the first index whose LUT entry equals the rate, else
`VBAN_SR_MAX_INDEX`. -/
def vban_get_index_from_sr (sample_rate : Nat) : Nat :=
  match (List.range (VBAN_SR_705600 + 1)).find?
      (fun i => VBAN_SAMPLE_RATES_LUT.getD i 0 == sample_rate) with
  | some i => i
  | none => VBAN_SR_MAX_INDEX

/-! ## Ring buffer from `main/circular_buffer.c`

The C functions mutate a `circular_buffer_t` in place and return an `int`
status code; the embedding returns the status code paired with the (possibly
updated) buffer state.  The backing store (`char *buffer`, allocated at twice
the logical capacity for mirroring) is modelled as a function from
backing-store offsets to byte values.  The C `data == NULL` pointer check has
no counterpart here because the data argument is a value, not a pointer. -/

def CB_SUCCESS : Int := 0

def CB_ERROR_INVALID_ARG : Int := -1

def CB_ERROR_NOT_INITIALIZED : Int := -2

def CB_ERROR_BUFFER_FULL : Int := -3

def CB_ERROR_ALLOC_FAILED : Int := -4

def CB_ERROR_CONSUME_TOO_MUCH : Int := -5

structure circular_buffer_t where
  buffer : Nat → Nat
  capacity : Nat
  head : Nat
  tail : Nat
  count : Nat
  is_initialized : Bool

/-- One `memcpy(buf + dst, src, src.length)` into the backing store. -/
def memcpy (buf : Nat → Nat) (dst : Nat) (src : List Nat) : Nat → Nat :=
  fun i => if dst ≤ i ∧ i < dst + src.length then src.getD (i - dst) 0 else buf i

/-- `circular_buffer_init`: fresh buffer of the given logical capacity (the
malloc'd contents are indeterminate in C; modelled as zero bytes, which are
never read before being written). -/
def circular_buffer_init (capacity : Nat) : Int × circular_buffer_t :=
  if capacity = 0 then
    (CB_ERROR_INVALID_ARG,
     ⟨fun _ => 0, 0, 0, 0, 0, false⟩)
  else
    (CB_SUCCESS,
     ⟨fun _ => 0, capacity, 0, 0, 0, true⟩)

/-- `circular_buffer_get_count`. -/
def circular_buffer_get_count (cb : circular_buffer_t) : Nat :=
  if cb.is_initialized = false then 0 else cb.count

/-- `circular_buffer_get_free_space`. -/
def circular_buffer_get_free_space (cb : circular_buffer_t) : Nat :=
  if cb.is_initialized = false then 0 else cb.capacity - cb.count

/-- `circular_buffer_write`: copies `data` at the head cursor into both the
primary region and the `+capacity` mirror region, splitting at the logical
wraparound point exactly as the two `memcpy` pairs in the C code do. -/
def circular_buffer_write (cb : circular_buffer_t) (data : List Nat) :
    Int × circular_buffer_t :=
  if cb.is_initialized = false then (CB_ERROR_NOT_INITIALIZED, cb)
  else if data.length = 0 then (CB_SUCCESS, cb)
  else if circular_buffer_get_free_space cb < data.length then
    (CB_ERROR_BUFFER_FULL, cb)
  else
    let bytes := data.length
    let current_logical_head := cb.head
    let len_part1 := min (cb.capacity - current_logical_head) bytes
    let buf1 := memcpy cb.buffer current_logical_head (data.take len_part1)
    let buf2 := memcpy buf1 (current_logical_head + cb.capacity) (data.take len_part1)
    let buf3 := memcpy buf2 0 (data.drop len_part1)
    let buf4 := memcpy buf3 cb.capacity (data.drop len_part1)
    (CB_SUCCESS,
     { cb with
        buffer := buf4
        head := (current_logical_head + bytes) % cb.capacity
        count := cb.count + bytes })

/-- `circular_buffer_get_readable_region`: returns the backing-store offset of
the contiguous readable span together with `*readable_bytes`, or `none` when
the C function returns `NULL`. -/
def circular_buffer_get_readable_region (cb : circular_buffer_t) :
    Option (Nat × Nat) :=
  if cb.is_initialized = false then none
  else if cb.count = 0 then none
  else some (cb.tail, cb.count)

/-- `circular_buffer_consume`. -/
def circular_buffer_consume (cb : circular_buffer_t) (bytes_consumed : Nat) :
    Int × circular_buffer_t :=
  if cb.is_initialized = false then (CB_ERROR_NOT_INITIALIZED, cb)
  else if bytes_consumed = 0 then (CB_SUCCESS, cb)
  else if cb.count < bytes_consumed then (CB_ERROR_CONSUME_TOO_MUCH, cb)
  else
    (CB_SUCCESS,
     { cb with
        tail := (cb.tail + bytes_consumed) % cb.capacity
        count := cb.count - bytes_consumed })

/-- The bytes of the backing store starting at offset `off`, `n` bytes long:
the contents of the span returned by `circular_buffer_get_readable_region`. -/
def readSpan (buf : Nat → Nat) (off n : Nat) : List Nat :=
  (List.range n).map (fun i => buf (off + i))

/-! ### Operation sequences and the capacity invariant (C5) -/

/-- A single client-visible mutating ring-buffer operation. -/
inductive CBOp where
  | write (data : List Nat)
  | consume (n : Nat)

/-- Apply one operation, keeping the (unchanged) state when the C function
reports an error. -/
def cbStep (cb : circular_buffer_t) (op : CBOp) : circular_buffer_t :=
  match op with
  | .write data => (circular_buffer_write cb data).2
  | .consume n => (circular_buffer_consume cb n).2

/-- Run a sequence of operations from a given state. -/
def cbRun (cb : circular_buffer_t) (ops : List CBOp) : circular_buffer_t :=
  ops.foldl cbStep cb

/-- The structural invariant maintained by every operation. -/
def cbInv (C : Nat) (cb : circular_buffer_t) : Prop :=
  cb.capacity = C ∧ cb.is_initialized = true ∧ cb.count ≤ C ∧
    cb.head < C ∧ cb.tail < C

/-! ### Abstraction relation: a buffer state represents a byte queue (C4) -/

/-- `cb` holds the logical byte queue `l`: the cursors are in range, the head
is determined by tail and count, and every queued byte is present in both the
primary copy and the `+capacity` mirror copy of the backing store (the
mirroring discipline of `circular_buffer_write`). -/
def cbRepr (cb : circular_buffer_t) (l : List Nat) : Prop :=
  cb.is_initialized = true ∧ 0 < cb.capacity ∧ cb.tail < cb.capacity ∧
  cb.count = l.length ∧ cb.count ≤ cb.capacity ∧
  cb.head = (cb.tail + cb.count) % cb.capacity ∧
  ∀ i, i < l.length →
    cb.buffer ((cb.tail + i) % cb.capacity) = l.getD i 0 ∧
    cb.buffer ((cb.tail + i) % cb.capacity + cb.capacity) = l.getD i 0

/-! ## Receive path from `main/vban.c` (`vban_receive_task` loop body)

One iteration of the receive loop is modelled as a function from the raw
datagram bytes to an optional callback invocation; `none` models every
`continue` (drop) path, which surfaces no error to any caller. -/

/-- C `strncmp(s1, s2, n)`: compares byte by byte, stopping at the first
difference or at a NUL that occurs in both strings; bytes beyond index
`n - 1` are never examined.  Reading past the end of a modelled array yields
a NUL byte (the C arrays compared here are always at least `n` bytes). -/
def strncmp (s1 s2 : List Nat) : Nat → Int
  | 0 => 0
  | n + 1 =>
    let c1 := s1.headD 0
    let c2 := s2.headD 0
    if c1 ≠ c2 then (c1 : Int) - (c2 : Int)
    else if c1 = 0 then 0
    else strncmp s1.tail s2.tail n

/-- The `vban_header_t` fields as read by the receiver after casting the
packet buffer (little-endian, packed, 28 bytes). -/
structure vban_header_t where
  vban_magic : Nat
  sr_subprotocol : Nat
  samples_per_frame_m1 : Nat
  channels_m1 : Nat
  format_codec : Nat
  stream_name : List Nat
  frame_counter : Nat
  deriving DecidableEq

/-- Reinterpretation of the first 28 packet bytes as a `vban_header_t`
(`vban_header_t* header = (vban_header_t*)rx_buffer`). -/
def parse_vban_header (pkt : List Nat) : vban_header_t :=
  { vban_magic := pkt.getD 0 0 + 256 * pkt.getD 1 0 + 65536 * pkt.getD 2 0 +
      16777216 * pkt.getD 3 0
    sr_subprotocol := pkt.getD 4 0
    samples_per_frame_m1 := pkt.getD 5 0
    channels_m1 := pkt.getD 6 0
    format_codec := pkt.getD 7 0
    stream_name := (pkt.drop 8).take VBAN_STREAM_NAME_MAX_LEN
    frame_counter := pkt.getD 24 0 + 256 * pkt.getD 25 0 +
      65536 * pkt.getD 26 0 + 16777216 * pkt.getD 27 0 }

/-- The receiver configuration fields consulted by the loop body.
`expected_stream_name` is the 16-byte `char` array; `has_audio_callback`
models `config.audio_callback != NULL`. -/
structure vban_receiver_config_t where
  expected_stream_name : List Nat
  has_audio_callback : Bool

/-- A callback invocation: the arguments passed to `audio_callback` (header,
payload pointer modelled by the payload bytes, payload length), plus whether
the size-mismatch warning was logged before the call. -/
structure vban_delivery where
  header : vban_header_t
  audio_data : List Nat
  audio_data_len : Nat
  size_mismatch_warned : Bool
  deriving DecidableEq

/-- Payload size advertised by the header:
`(samples_per_frame_m1 + 1) * (channels_m1 + 1) * vban_get_data_type_size(data_type)`. -/
def expected_payload_size (header : vban_header_t) : Nat :=
  (header.samples_per_frame_m1 + 1) * (header.channels_m1 + 1) *
    vban_get_data_type_size (header.format_codec &&& VBAN_DATATYPE_MASK)

/-- The audio-dispatch tail of the loop body (after the length, magic and
stream-name checks): sub-protocol check, callback-presence check, codec
check, size-mismatch warning, callback invocation. -/
def vban_dispatch_audio (cfg : vban_receiver_config_t) (pkt : List Nat) :
    Option vban_delivery :=
  let header := parse_vban_header pkt
  let sub_protocol_id := (header.sr_subprotocol &&& VBAN_SUBPROTOCOL_MASK) >>>
    VBAN_SUBPROTOCOL_SHIFT
  if sub_protocol_id = VBAN_SUBPROTOCOL_AUDIO >>> VBAN_SUBPROTOCOL_SHIFT then
    if cfg.has_audio_callback then
      let audio_data := pkt.drop VBAN_HEADER_SIZE
      let audio_data_len := pkt.length - VBAN_HEADER_SIZE
      let codec_id := (header.format_codec &&& VBAN_CODEC_MASK) >>>
        VBAN_CODEC_SHIFT
      if codec_id = VBAN_CODEC_PCM >>> VBAN_CODEC_SHIFT then
        some { header := header
               audio_data := audio_data
               audio_data_len := audio_data_len
               size_mismatch_warned :=
                 audio_data_len ≠ expected_payload_size header }
      else none
    else none
  else none

/-- One iteration of the `vban_receive_task` loop for a received datagram
`pkt`: too-short, bad-magic and name-mismatch packets are dropped
(`continue`), then audio/PCM packets are dispatched. -/
def vban_process_datagram (cfg : vban_receiver_config_t) (pkt : List Nat) :
    Option vban_delivery :=
  if pkt.length < VBAN_HEADER_SIZE then none
  else
    let header := parse_vban_header pkt
    if header.vban_magic ≠ VBAN_MAGIC_NUMBER then none
    else if cfg.expected_stream_name.getD 0 0 ≠ 0 ∧
        strncmp cfg.expected_stream_name header.stream_name
          VBAN_STREAM_NAME_MAX_LEN ≠ 0 then none
    else vban_dispatch_audio cfg pkt

/-- The receiver configuration of `main/main.c`: expected stream name
`"TestStream1"` stored in the 16-byte `char` array, callback registered. -/
def cfgTestStream1 : vban_receiver_config_t :=
  ⟨[84, 101, 115, 116, 83, 116, 114, 101, 97, 109, 49, 0, 0, 0, 0, 0], true⟩

/-- A valid audio/PCM datagram whose stream-name field is
`"TestStream1\0XXXX"`: it agrees with the configured name up to the NUL but
carries garbage in bytes 12–15. -/
def pkt_trailing_garbage_name : List Nat :=
  [86, 66, 65, 78, 3, 0, 0, 1,
   84, 101, 115, 116, 83, 116, 114, 101, 97, 109, 49, 0, 88, 88, 88, 88,
   0, 0, 0, 0, 5, 6]

/-- A valid audio/PCM datagram carrying the name `"OtherStream"` padded with
NULs. -/
def pkt_other_stream : List Nat :=
  [86, 66, 65, 78, 3, 0, 0, 1,
   79, 116, 104, 101, 114, 83, 116, 114, 101, 97, 109, 0, 0, 0, 0, 0,
   0, 0, 0, 0, 5, 6]

/-- A valid audio/PCM datagram carrying exactly `"TestStream1"` followed by
five NUL bytes. -/
def pkt_exact_name : List Nat :=
  [86, 66, 65, 78, 3, 0, 0, 1,
   84, 101, 115, 116, 83, 116, 114, 101, 97, 109, 49, 0, 0, 0, 0, 0,
   0, 0, 0, 0, 5, 6]

/-- Datagram for the C7 witness: valid header advertising 1 sample × 1
channel × 16-bit (2 bytes expected) but carrying a 3-byte payload. -/
def pkt_size_mismatch : List Nat :=
  [86, 66, 65, 78, 3, 0, 0, 1,
   0, 0, 0, 0, 0, 0, 0, 0, 0, 0, 0, 0, 0, 0, 0, 0,
   0, 0, 0, 0, 7, 8, 9]

/-! ## Streaming pipeline from `main/main.c` (`vban_receive_callback`)

The callback checks the advertised format against the fixed configuration
(48000 Hz, mono, 16-bit), writes the payload into the global ring buffer and
then, while at least one 32-byte chunk is available, pushes an
`audio_buffer_t` descriptor (holding the raw pointer returned by
`circular_buffer_get_readable_region`) onto the handoff queue and consumes
the chunk.  `xQueueSend` is called with `portMAX_DELAY` and is modelled as a
blocking push that always succeeds; the returned list collects the pushed
descriptors in order. -/

def SAMPLE_RATE : Nat := 48000

def CHANNEL_COUNT : Nat := 1

def AUDIO_BUFFER_SIZE : Nat := 32

def VBAN_DATATYPE_INT16 : Nat := 1

/-- The queue element of `main.c`: the raw pointer into the ring buffer's
backing store (modelled as the backing-store offset) and the chunk size. -/
structure audio_buffer_t where
  buffer : Nat
  size : Nat
  deriving DecidableEq

/-- The `while (circular_buffer_get_count(&cb) >= AUDIO_BUFFER_SIZE)` loop of
`vban_receive_callback`: slice one chunk descriptor per iteration, push it,
then consume `AUDIO_BUFFER_SIZE` bytes. -/
def chunk_handoff_loop (cb : circular_buffer_t) :
    circular_buffer_t × List audio_buffer_t :=
  if h : AUDIO_BUFFER_SIZE ≤ circular_buffer_get_count cb then
    match circular_buffer_get_readable_region cb with
    | none => (cb, [])
    | some (region_off, readable_bytes) =>
      if readable_bytes < AUDIO_BUFFER_SIZE then (cb, [])
      else
        let audio_buf : audio_buffer_t :=
          { buffer := region_off, size := AUDIO_BUFFER_SIZE }
        let res := circular_buffer_consume cb AUDIO_BUFFER_SIZE
        if res.1 ≠ CB_SUCCESS then (res.2, [audio_buf])
        else
          let next := chunk_handoff_loop res.2
          (next.1, audio_buf :: next.2)
  else (cb, [])
termination_by circular_buffer_get_count cb
decreasing_by
  simp only [AUDIO_BUFFER_SIZE] at h
  by_cases hinit : cb.is_initialized = false
  · simp only [circular_buffer_get_count, if_pos hinit] at h
    omega
  · simp only [circular_buffer_get_count, if_neg hinit] at h
    have hc : circular_buffer_consume cb AUDIO_BUFFER_SIZE =
        (CB_SUCCESS,
         { cb with tail := (cb.tail + AUDIO_BUFFER_SIZE) % cb.capacity
                   count := cb.count - AUDIO_BUFFER_SIZE }) := by
      unfold circular_buffer_consume
      rw [if_neg hinit, if_neg (by simp [AUDIO_BUFFER_SIZE]),
        if_neg (by simp only [AUDIO_BUFFER_SIZE]; omega)]
    rw [hc]
    dsimp only
    simp only [circular_buffer_get_count, if_neg hinit, AUDIO_BUFFER_SIZE]
    omega

/-- `vban_receive_callback` from `main/main.c`: format filtering, ring-buffer
write, chunk handoff. -/
def vban_receive_callback (cb : circular_buffer_t) (header : vban_header_t)
    (audio_data : List Nat) : circular_buffer_t × List audio_buffer_t :=
  let actual_sr :=
    vban_get_sr_from_index (header.sr_subprotocol &&& VBAN_SR_INDEX_MASK)
  let num_channels := header.channels_m1 + 1
  let data_type := header.format_codec &&& VBAN_DATATYPE_MASK
  if actual_sr ≠ SAMPLE_RATE then (cb, [])
  else if num_channels ≠ CHANNEL_COUNT then (cb, [])
  else if data_type ≠ VBAN_DATATYPE_INT16 then (cb, [])
  else
    let res := circular_buffer_write cb audio_data
    if res.1 ≠ CB_SUCCESS then (res.2, [])
    else chunk_handoff_loop res.2

/-! ## Sender from `main/vban.c` (`vban_audio_send`, C10) -/

def ESP_OK : Nat := 0

def ESP_ERR_VBAN_INVALID_ARG : Nat := 0x70001

def ESP_ERR_VBAN_INVALID_HANDLE : Nat := 0x70004

def ESP_ERR_VBAN_SEND_FAIL : Nat := 0x70005

def ESP_ERR_VBAN_PAYLOAD_TOO_LARGE : Nat := 0x7000E

structure vban_audio_format_t where
  sample_rate_idx : Nat
  num_channels : Nat
  data_type : Nat

/-- `vban_audio_send`: validation, header construction (which post-increments
the sender's 32-bit frame counter), then `sendto`.  The datagram transmission
is environmental: `sent_len` is the value `sendto` returns.  The result is
the `esp_err_t` code paired with the sender's frame counter after the call. -/
def vban_audio_send (handle_is_sender : Bool) (frame_counter : Nat)
    (fmt : vban_audio_format_t) (audio_data_is_null : Bool)
    (num_samples : Nat) (sent_len : Int) : Nat × Nat :=
  if handle_is_sender = false then
    (ESP_ERR_VBAN_INVALID_HANDLE, frame_counter)
  else if audio_data_is_null ∨ num_samples = 0 then
    (ESP_ERR_VBAN_INVALID_ARG, frame_counter)
  else
    let sample_component_size := vban_get_data_type_size fmt.data_type
    if sample_component_size = 0 then
      (ESP_ERR_VBAN_INVALID_ARG, frame_counter)
    else
      let audio_payload_size :=
        num_samples * fmt.num_channels * sample_component_size
      if VBAN_MAX_PAYLOAD_SIZE < audio_payload_size then
        (ESP_ERR_VBAN_PAYLOAD_TOO_LARGE, frame_counter)
      else
        -- header->frame_counter = handle->ctx.sender.frame_counter++;
        let frame_counter' := (frame_counter + 1) % 2 ^ 32
        if sent_len < 0 then (ESP_ERR_VBAN_SEND_FAIL, frame_counter')
        else if sent_len ≠ ((VBAN_HEADER_SIZE + audio_payload_size : Nat) : Int)
        then (ESP_ERR_VBAN_SEND_FAIL, frame_counter')
        else (ESP_OK, frame_counter')

/-! ## Theorems -/

/-- C6: the sample-rate lookup pair is a bidirectional table.  For each of the
21 defined indices `i`, `vban_get_index_from_sr (vban_get_sr_from_index i) = i`;
every reserved index 21–31 maps to 0 Hz; and every Hz value absent from the
defined part of the table maps to the `VBAN_SR_MAX_INDEX` sentinel, with no
nearest-rate fallback. -/
theorem sample_rate_table_bidirectional :
    (∀ i, i ≤ VBAN_SR_705600 →
      vban_get_index_from_sr (vban_get_sr_from_index i) = i) ∧
    (∀ i, 21 ≤ i → i ≤ 31 → vban_get_sr_from_index i = 0) ∧
    (∀ sr, (∀ j, j ≤ VBAN_SR_705600 → VBAN_SAMPLE_RATES_LUT.getD j 0 ≠ sr) →
      vban_get_index_from_sr sr = VBAN_SR_MAX_INDEX) := by
  refine ⟨?_, ?_, ?_⟩
  · intro i hi
    simp only [VBAN_SR_705600] at hi
    interval_cases i <;> rfl
  · intro i h21 h31
    have : ¬ (i < VBAN_SR_MAX_INDEX ∧ i ≤ VBAN_SR_705600) := by
      simp only [VBAN_SR_MAX_INDEX, VBAN_SR_705600]
      omega
    simp [vban_get_sr_from_index, this]
  · intro sr hsr
    have hnone : (List.range (VBAN_SR_705600 + 1)).find?
        (fun i => VBAN_SAMPLE_RATES_LUT.getD i 0 == sr) = none := by
      rw [List.find?_eq_none]
      intro i hi
      simp only [List.mem_range] at hi
      simpa using hsr i (by omega)
    unfold vban_get_index_from_sr
    rw [hnone]

/-- Witness for C6 at concrete inputs: index 3 round-trips through 48000 Hz,
index 25 yields 0 Hz, and 44099 Hz (absent from the table) yields the
sentinel. -/
theorem sample_rate_table_bidirectional_witness :
    vban_get_index_from_sr (vban_get_sr_from_index 3) = 3 ∧
    vban_get_sr_from_index 25 = 0 ∧
    vban_get_index_from_sr 44099 = VBAN_SR_MAX_INDEX := by
  refine ⟨?_, ?_, ?_⟩
  · exact sample_rate_table_bidirectional.1 3 (by decide)
  · exact sample_rate_table_bidirectional.2.1 25 (by decide) (by decide)
  · exact sample_rate_table_bidirectional.2.2 44099 (by decide)

/-- C3: writing more bytes than the current free space into an initialized
buffer returns `CB_ERROR_BUFFER_FULL` and leaves the entire state — head,
tail, count, and stored bytes — unchanged; no partial write happens. -/
theorem write_full_leaves_state_unchanged (cb : circular_buffer_t)
    (data : List Nat)
    (hinit : cb.is_initialized = true)
    (hfull : cb.capacity - cb.count < data.length) :
    circular_buffer_write cb data = (CB_ERROR_BUFFER_FULL, cb) := by
  have hfree : circular_buffer_get_free_space cb < data.length := by
    simpa [circular_buffer_get_free_space, hinit] using hfull
  have hne : data.length ≠ 0 := by omega
  simp [circular_buffer_write, hinit, hne, hfree]

/-- Witness for C3: a concrete 2-byte buffer holding 1 byte rejects a 2-byte
write unchanged. -/
theorem write_full_leaves_state_unchanged_witness :
    circular_buffer_write ⟨fun _ => 7, 2, 1, 0, 1, true⟩ [10, 11] =
      (CB_ERROR_BUFFER_FULL, ⟨fun _ => 7, 2, 1, 0, 1, true⟩) :=
  write_full_leaves_state_unchanged ⟨fun _ => 7, 2, 1, 0, 1, true⟩ [10, 11]
    rfl (by decide)

theorem cbStep_inv {C : Nat} (hC : 0 < C) {cb : circular_buffer_t}
    (h : cbInv C cb) (op : CBOp) : cbInv C (cbStep cb op) := by
  obtain ⟨hcap, hinit, hcount, hhead, htail⟩ := h
  cases op with
  | write data =>
    by_cases h0 : data.length = 0
    · simp [cbStep, circular_buffer_write, hinit, h0, cbInv, hcap, hcount,
        hhead, htail]
    · by_cases hfree : circular_buffer_get_free_space cb < data.length
      · simp [cbStep, circular_buffer_write, hinit, h0, hfree, cbInv, hcap,
          hcount, hhead, htail]
      · have hfree' : data.length ≤ cb.capacity - cb.count := by
          simpa [circular_buffer_get_free_space, hinit] using
            Nat.le_of_not_lt hfree
        show cbInv C (circular_buffer_write cb data).2
        unfold circular_buffer_write
        rw [if_neg (by simp [hinit]), if_neg h0, if_neg hfree]
        exact ⟨hcap, hinit, by dsimp only; omega,
          by dsimp only; simpa [hcap] using
            Nat.mod_lt (cb.head + data.length) (by omega),
          htail⟩
  | consume n =>
    by_cases h0 : n = 0
    · simp [cbStep, circular_buffer_consume, hinit, h0, cbInv, hcap, hcount,
        hhead, htail]
    · by_cases hmuch : cb.count < n
      · simp [cbStep, circular_buffer_consume, hinit, h0, hmuch, cbInv, hcap,
          hcount, hhead, htail]
      · show cbInv C (circular_buffer_consume cb n).2
        unfold circular_buffer_consume
        rw [if_neg (by simp [hinit]), if_neg h0, if_neg hmuch]
        exact ⟨hcap, hinit, by dsimp only; omega, hhead,
          by dsimp only; simpa [hcap] using
            Nat.mod_lt (cb.tail + n) (by omega)⟩

theorem cbRun_inv {C : Nat} (hC : 0 < C) {cb : circular_buffer_t}
    (h : cbInv C cb) (ops : List CBOp) : cbInv C (cbRun cb ops) := by
  induction ops generalizing cb with
  | nil => exact h
  | cons op ops ih => exact ih (cbStep_inv hC h op)

/-- C5: from a freshly initialized buffer of capacity `C > 0`, after any
sequence of `circular_buffer_write` / `circular_buffer_consume` operations the
occupied count never exceeds `C` and the head and tail cursors stay within
`0..C-1`; moreover `consume n` with `n` greater than the occupied count fails
with `CB_ERROR_CONSUME_TOO_MUCH` and leaves the state unchanged. -/
theorem ring_buffer_invariant (C : Nat) (hC : 0 < C) (ops : List CBOp) :
    ((cbRun (circular_buffer_init C).2 ops).count ≤ C ∧
     (cbRun (circular_buffer_init C).2 ops).head < C ∧
     (cbRun (circular_buffer_init C).2 ops).tail < C) ∧
    (∀ cb n, cb.is_initialized = true → cb.count < n →
      circular_buffer_consume cb n = (CB_ERROR_CONSUME_TOO_MUCH, cb)) := by
  constructor
  · have hinv0 : cbInv C (circular_buffer_init C).2 := by
      have : C ≠ 0 := by omega
      simp [circular_buffer_init, this, cbInv, hC]
    have := cbRun_inv hC hinv0 ops
    exact ⟨this.2.2.1, this.2.2.2.1, this.2.2.2.2⟩
  · intro cb n hinit hmuch
    have hn : n ≠ 0 := by omega
    simp [circular_buffer_consume, hinit, hn, hmuch]

/-- Witness for C5 at a concrete input: capacity 3, one 2-byte write followed
by consuming 1 byte keeps the invariant, and over-consuming fails unchanged. -/
theorem ring_buffer_invariant_witness :
    ((cbRun (circular_buffer_init 3).2 [.write [1, 2], .consume 1]).count ≤ 3 ∧
     (cbRun (circular_buffer_init 3).2 [.write [1, 2], .consume 1]).head < 3 ∧
     (cbRun (circular_buffer_init 3).2 [.write [1, 2], .consume 1]).tail < 3) ∧
    (∀ cb n, cb.is_initialized = true → cb.count < n →
      circular_buffer_consume cb n = (CB_ERROR_CONSUME_TOO_MUCH, cb)) :=
  ring_buffer_invariant 3 (by decide) [.write [1, 2], .consume 1]

theorem getD_drop (l : List Nat) (n i : Nat) :
    (l.drop n).getD i 0 = l.getD (n + i) 0 := by
  simp [List.getD_eq_getElem?_getD, List.getElem?_drop]

theorem getD_take (l : List Nat) (n i : Nat) (h : i < n) :
    (l.take n).getD i 0 = l.getD i 0 := by
  simp [List.getD_eq_getElem?_getD, List.getElem?_take, h]

theorem circular_buffer_init_repr (C : Nat) (hC : 0 < C) :
    (circular_buffer_init C).1 = CB_SUCCESS ∧
    cbRepr (circular_buffer_init C).2 [] := by
  have : C ≠ 0 := by omega
  simp [circular_buffer_init, this, cbRepr, hC]

theorem readSpan_eq (f : Nat → Nat) (off : Nat) (l : List Nat)
    (h : ∀ i, i < l.length → f (off + i) = l.getD i 0) :
    readSpan f off l.length = l := by
  apply List.ext_getElem
  · simp [readSpan]
  · intro i h1 h2
    simp only [readSpan, List.getElem_map, List.getElem_range]
    rw [h i h2, List.getD_eq_getElem l 0 h2]

/-- The readable span of a represented buffer is the queue itself (any
prefix). -/
theorem cbRepr_readSpan {cb : circular_buffer_t} {l : List Nat}
    (h : cbRepr cb l) : ∀ m, m ≤ l.length →
    readSpan cb.buffer cb.tail m = l.take m := by
  obtain ⟨hinit, hC, ht, hcnt, hle, hhd, hl⟩ := h
  intro m hm
  have hlen : (l.take m).length = m := by
    rw [List.length_take]; omega
  have := readSpan_eq cb.buffer cb.tail (l.take m) ?_
  · rwa [hlen] at this
  intro i hi
  rw [hlen] at hi
  have hil : i < l.length := by omega
  obtain ⟨h1, h2⟩ := hl i hil
  have htot : cb.tail + i < 2 * cb.capacity := by omega
  rw [getD_take l m i hi]
  rcases Nat.lt_or_ge (cb.tail + i) cb.capacity with hlt | hge
  · rwa [Nat.mod_eq_of_lt hlt] at h1
  · have hmod : (cb.tail + i) % cb.capacity = cb.tail + i - cb.capacity := by
      rw [Nat.mod_eq_sub_mod hge, Nat.mod_eq_of_lt (by omega)]
    rw [hmod] at h2
    have : cb.tail + i - cb.capacity + cb.capacity = cb.tail + i := by omega
    rwa [this] at h2

theorem cbRepr_get_readable_region {cb : circular_buffer_t} {l : List Nat}
    (h : cbRepr cb l) (hne : l ≠ []) :
    circular_buffer_get_readable_region cb = some (cb.tail, cb.count) ∧
    readSpan cb.buffer cb.tail cb.count = l := by
  obtain ⟨hinit, hC, ht, hcnt, hle, hhd, hl⟩ := h
  have hpos : cb.count ≠ 0 := by
    have := List.length_pos.mpr hne
    omega
  constructor
  · simp [circular_buffer_get_readable_region, hinit, hpos]
  · have := cbRepr_readSpan ⟨hinit, hC, ht, hcnt, hle, hhd, hl⟩ l.length
      (le_refl _)
    rw [hcnt]
    simpa using this

/-- Effect of the four `memcpy`s of `circular_buffer_write` on the two copies
of every logical byte: after the bulk copy, both the primary and the mirror
address of each byte of `l ++ data` hold that byte. -/
theorem write_buffer_spec (buffer : Nat → Nat) (C t hd len1 : Nat)
    (l data : List Nat)
    (hC : 0 < C) (ht : t < C) (hfit : l.length + data.length ≤ C)
    (hhd : hd = (t + l.length) % C)
    (hlen1 : len1 = min (C - hd) data.length)
    (hl : ∀ i, i < l.length →
      buffer ((t + i) % C) = l.getD i 0 ∧
      buffer ((t + i) % C + C) = l.getD i 0) :
    ∀ i, i < l.length + data.length →
      (memcpy (memcpy (memcpy (memcpy buffer hd (data.take len1))
          (hd + C) (data.take len1)) 0 (data.drop len1)) C (data.drop len1))
          ((t + i) % C)
        = (l ++ data).getD i 0 ∧
      (memcpy (memcpy (memcpy (memcpy buffer hd (data.take len1))
          (hd + C) (data.take len1)) 0 (data.drop len1)) C (data.drop len1))
          ((t + i) % C + C)
        = (l ++ data).getD i 0 := by
  intro i hi
  have hp1 : (data.take len1).length = len1 := by
    rw [List.length_take]; omega
  have hrem : (data.drop len1).length = data.length - len1 := by
    rw [List.length_drop]
  have hhdlt : hd < C := by
    rw [hhd]; exact Nat.mod_lt _ (by omega)
  have hhdlen1 : hd + len1 ≤ C := by omega
  rcases Nat.lt_or_ge i l.length with hold | hnew
  · -- a previously stored byte: all four copy windows miss both addresses
    obtain ⟨h1, h2⟩ := hl i hold
    have hrhs : (l ++ data).getD i 0 = l.getD i 0 :=
      List.getD_append l data 0 i hold
    -- locate the reduced address
    have  ha1lt : (t + i) % C < C := Nat.mod_lt _ (by omega)
    have ha1 : (t + i < C ∧ (t + i) % C = t + i) ∨
        (C ≤ t + i ∧ (t + i) % C = t + i - C) := by
      rcases Nat.lt_or_ge (t + i) C with hlt | hge
      · exact Or.inl ⟨hlt, Nat.mod_eq_of_lt hlt⟩
      · refine Or.inr ⟨hge, ?_⟩
        rw [Nat.mod_eq_sub_mod hge, Nat.mod_eq_of_lt (by omega)]
    -- the %C projection of the address avoids [hd, hd+len1) and [0, rem)
    have havoid : ¬ (hd ≤ (t + i) % C ∧ (t + i) % C < hd + len1) ∧
        ¬ ((t + i) % C < data.length - len1) := by
      have hhd2 : (t + l.length < C ∧ hd = t + l.length) ∨
          (C ≤ t + l.length ∧ hd = t + l.length - C) := by
        rcases Nat.lt_or_ge (t + l.length) C with hlt | hge
        · exact Or.inl ⟨hlt, by rw [hhd, Nat.mod_eq_of_lt hlt]⟩
        · refine Or.inr ⟨hge, ?_⟩
          rw [hhd, Nat.mod_eq_sub_mod hge, Nat.mod_eq_of_lt (by omega)]
      rcases ha1 with ⟨hel, he⟩ | ⟨hel, he⟩ <;>
        rcases hhd2 with ⟨hhl, hh⟩ | ⟨hhl, hh⟩ <;> omega
    obtain ⟨hav1, hav2⟩ := havoid
    constructor
    · simp only [memcpy, hp1, hrem]
      rw [if_neg (by omega), if_neg (by omega), if_neg (by omega),
        if_neg (by omega), hrhs]
      exact h1
    · simp only [memcpy, hp1, hrem]
      rw [if_neg (by omega), if_neg (by omega), if_neg (by omega),
        if_neg (by omega), hrhs]
      exact h2
  · -- a freshly written byte at data offset j
    have hrhs : (l ++ data).getD i 0 = data.getD (i - l.length) 0 :=
      List.getD_append_right l data 0 i hnew
    have ha1 : (t + i) % C = (hd + (i - l.length)) % C := by
      rw [hhd, Nat.mod_add_mod]
      congr 1
      omega
    rcases Nat.lt_or_ge (i - l.length) len1 with hj | hj
    · -- lands in the first window [hd, hd+len1) and its mirror
      have hlt : hd + (i - l.length) < C := by omega
      have ha1' : (t + i) % C = hd + (i - l.length) := by
        rw [ha1, Nat.mod_eq_of_lt hlt]
      have hval : (data.take len1).getD ((t + i) % C - hd) 0 =
          data.getD (i - l.length) 0 := by
        have : (t + i) % C - hd = i - l.length := by omega
        rw [this, getD_take data len1 _ hj]
      constructor
      · simp only [memcpy, hp1, hrem]
        rw [if_neg (by omega), if_neg (by omega), if_neg (by omega),
          if_pos (by omega), hval, hrhs]
      · simp only [memcpy, hp1, hrem]
        rw [if_neg (by omega), if_neg (by omega),
          if_pos (by omega)]
        rw [hrhs]
        have : (t + i) % C + C - (hd + C) = i - l.length := by omega
        rw [this, getD_take data len1 _ hj]
    · -- wraps: lands in [0, rem) and its mirror at [C, C+rem)
      have hwrap : len1 = C - hd := by omega
      have hge2 : C ≤ hd + (i - l.length) := by omega
      have ha1' : (t + i) % C = i - l.length - len1 := by
        rw [ha1, Nat.mod_eq_sub_mod hge2, Nat.mod_eq_of_lt (by omega)]
        omega
      have hval : (data.drop len1).getD ((t + i) % C) 0 =
          data.getD (i - l.length) 0 := by
        rw [getD_drop]
        congr 1
        omega
      constructor
      · simp only [memcpy, hp1, hrem]
        rw [if_neg (by omega), if_pos (by omega)]
        rw [hrhs]
        have : (t + i) % C - 0 = (t + i) % C := by omega
        rw [this, hval]
      · simp only [memcpy, hp1, hrem]
        rw [if_pos (by omega)]
        rw [hrhs]
        have : (t + i) % C + C - C = (t + i) % C := by omega
        rw [this, hval]

/-- A write that fits into the free space succeeds and appends the data to
the represented queue, leaving the tail cursor and capacity unchanged. -/
theorem circular_buffer_write_repr {cb : circular_buffer_t} {l : List Nat}
    (data : List Nat) (hrepr : cbRepr cb l)
    (hfit : l.length + data.length ≤ cb.capacity) :
    (circular_buffer_write cb data).1 = CB_SUCCESS ∧
    cbRepr (circular_buffer_write cb data).2 (l ++ data) ∧
    (circular_buffer_write cb data).2.tail = cb.tail ∧
    (circular_buffer_write cb data).2.capacity = cb.capacity := by
  obtain ⟨hinit, hC, ht, hcnt, hle, hhd, hl⟩ := hrepr
  by_cases h0 : data.length = 0
  · have hdata : data = [] := List.length_eq_zero.mp h0
    subst hdata
    unfold circular_buffer_write
    rw [if_neg (by simp [hinit]), if_pos List.length_nil]
    refine ⟨rfl, ?_, rfl, rfl⟩
    rw [List.append_nil]
    exact ⟨hinit, hC, ht, hcnt, hle, hhd, hl⟩
  · have hfree : ¬ (circular_buffer_get_free_space cb < data.length) := by
      simp only [circular_buffer_get_free_space, hinit]
      simp only [Bool.true_eq_false, if_false, ite_false]
      omega
    unfold circular_buffer_write
    rw [if_neg (by simp [hinit]), if_neg h0, if_neg hfree]
    refine ⟨rfl, ?_, rfl, rfl⟩
    refine ⟨hinit, hC, ht, ?_, ?_, ?_, ?_⟩
    · dsimp only
      rw [List.length_append]
      omega
    · dsimp only
      omega
    · dsimp only
      rw [hhd, Nat.mod_add_mod]
      congr 1
      omega
    · intro i hi
      rw [List.length_append] at hi
      dsimp only
      exact write_buffer_spec cb.buffer cb.capacity cb.tail cb.head _ l data
        hC ht hfit (by rw [hhd, hcnt]) rfl hl i hi

/-- A consume of at most the occupied count succeeds, drops the consumed
prefix from the represented queue, advances the tail cursor by the consumed
amount modulo the capacity, and does not touch the stored bytes. -/
theorem circular_buffer_consume_repr {cb : circular_buffer_t} {l : List Nat}
    (n : Nat) (hrepr : cbRepr cb l) (hn : n ≤ l.length) :
    (circular_buffer_consume cb n).1 = CB_SUCCESS ∧
    cbRepr (circular_buffer_consume cb n).2 (l.drop n) ∧
    (circular_buffer_consume cb n).2.buffer = cb.buffer ∧
    (circular_buffer_consume cb n).2.capacity = cb.capacity ∧
    (circular_buffer_consume cb n).2.tail = (cb.tail + n) % cb.capacity := by
  obtain ⟨hinit, hC, ht, hcnt, hle, hhd, hl⟩ := hrepr
  by_cases h0 : n = 0
  · subst h0
    unfold circular_buffer_consume
    rw [if_neg (by simp [hinit]), if_pos (rfl : (0 : Nat) = 0)]
    refine ⟨rfl, ?_, rfl, rfl, ?_⟩
    · rw [List.drop_zero]
      exact ⟨hinit, hC, ht, hcnt, hle, hhd, hl⟩
    · rw [Nat.add_zero, Nat.mod_eq_of_lt ht]
  · have hmuch : ¬ (cb.count < n) := by omega
    unfold circular_buffer_consume
    rw [if_neg (by simp [hinit]), if_neg h0, if_neg hmuch]
    refine ⟨rfl, ?_, rfl, rfl, rfl⟩
    refine ⟨hinit, hC, ?_, ?_, ?_, ?_, ?_⟩
    · dsimp only
      exact Nat.mod_lt _ (by omega)
    · dsimp only
      rw [List.length_drop]
      omega
    · dsimp only
      omega
    · dsimp only
      rw [hhd, Nat.mod_add_mod]
      congr 1
      omega
    · intro i hi
      rw [List.length_drop] at hi
      dsimp only
      have haddr : ((cb.tail + n) % cb.capacity + i) % cb.capacity =
          (cb.tail + (n + i)) % cb.capacity := by
        rw [Nat.mod_add_mod]
        congr 1
        omega
      rw [haddr, getD_drop]
      exact hl (n + i) (by omega)

/-- Every operation preserves representability (error paths leave the state
unchanged). -/
theorem cbStep_repr {cb : circular_buffer_t} {l : List Nat} (h : cbRepr cb l)
    (op : CBOp) : ∃ l', cbRepr (cbStep cb op) l' := by
  obtain ⟨hinit, hC, ht, hcnt, hle, hhd, hl⟩ := h
  cases op with
  | write data =>
    have hfs : circular_buffer_get_free_space cb =
        cb.capacity - cb.count := by
      unfold circular_buffer_get_free_space
      rw [if_neg (by simp [hinit])]
    by_cases hfree : circular_buffer_get_free_space cb < data.length
    · refine ⟨l, ?_⟩
      have hfree' : cb.capacity - cb.count < data.length := by
        rwa [hfs] at hfree
      have hne : data.length ≠ 0 := by omega
      show cbRepr (circular_buffer_write cb data).2 l
      unfold circular_buffer_write
      rw [if_neg (by simp [hinit]), if_neg hne, if_pos hfree]
      exact ⟨hinit, hC, ht, hcnt, hle, hhd, hl⟩
    · have hfree' : ¬ (cb.capacity - cb.count < data.length) := by
        rwa [hfs] at hfree
      have hfit : l.length + data.length ≤ cb.capacity := by omega
      exact ⟨l ++ data,
        (circular_buffer_write_repr data ⟨hinit, hC, ht, hcnt, hle, hhd, hl⟩
          hfit).2.1⟩
  | consume n =>
    by_cases hn : n ≤ l.length
    · exact ⟨l.drop n,
        (circular_buffer_consume_repr n ⟨hinit, hC, ht, hcnt, hle, hhd, hl⟩
          hn).2.1⟩
    · refine ⟨l, ?_⟩
      show cbRepr (circular_buffer_consume cb n).2 l
      unfold circular_buffer_consume
      rw [if_neg (by simp [hinit]), if_neg (by omega), if_pos (by omega)]
      exact ⟨hinit, hC, ht, hcnt, hle, hhd, hl⟩

/-- Every state reachable from a freshly initialized buffer by write/consume
sequences is represented by some byte queue, so the `cbRepr` hypothesis in
the round-trip theorem covers every reachable state. -/
theorem cbRun_repr (C : Nat) (hC : 0 < C) (ops : List CBOp) :
    ∃ l, cbRepr (cbRun (circular_buffer_init C).2 ops) l := by
  have h0 : cbRepr (circular_buffer_init C).2 [] :=
    (circular_buffer_init_repr C hC).2
  suffices h : ∀ (ops : List CBOp) (cb : circular_buffer_t) (l : List Nat),
      cbRepr cb l → ∃ l', cbRepr (cbRun cb ops) l' by
    exact h ops _ [] h0
  intro ops
  induction ops with
  | nil => exact fun cb l h => ⟨l, h⟩
  | cons op ops ih =>
    intro cb l h
    obtain ⟨l', h'⟩ := cbStep_repr h op
    exact ih _ l' h'

/-- C4: writing a byte sequence `B` (|B| ≤ capacity) into any represented
buffer state with enough free space — including wrapped states — succeeds,
and `get_readable_region` then yields one contiguous span of exactly
`occupied` bytes whose contents are the previously unconsumed bytes followed
by `B`; in particular, from an empty buffer the full readable region is
exactly `B`. -/
theorem write_then_readable_region (cb : circular_buffer_t) (l B : List Nat)
    (hrepr : cbRepr cb l)
    (hcap : B.length ≤ cb.capacity)
    (hfree : B.length ≤ cb.capacity - cb.count) :
    ∃ cb', circular_buffer_write cb B = (CB_SUCCESS, cb') ∧
      cb'.count = l.length + B.length ∧
      readSpan cb'.buffer cb'.tail cb'.count = l ++ B ∧
      (l ++ B ≠ [] →
        circular_buffer_get_readable_region cb' = some (cb'.tail, cb'.count)) := by
  have hcnt := hrepr.2.2.2.1
  have hle := hrepr.2.2.2.2.1
  have hfit : l.length + B.length ≤ cb.capacity := by omega
  obtain ⟨hok, hrepr', htl, hcap'⟩ := circular_buffer_write_repr B hrepr hfit
  refine ⟨(circular_buffer_write cb B).2, ?_, ?_, ?_, ?_⟩
  · rw [Prod.ext_iff]
    exact ⟨hok, rfl⟩
  · rw [hrepr'.2.2.2.1, List.length_append]
  · by_cases hne : l ++ B = []
    · rw [hne] at hrepr' ⊢
      rw [hrepr'.2.2.2.1]
      simp [readSpan]
    · exact (cbRepr_get_readable_region hrepr' hne).2
  · intro hne
    exact (cbRepr_get_readable_region hrepr' hne).1

/-- Witness for C4: writing 3 bytes into a concrete wrapped state (capacity 4,
tail 3, holding 1 byte) yields the readable span `[9, 1, 2, 3]`. -/
theorem write_then_readable_region_witness :
    ∃ cb', circular_buffer_write
        ⟨fun i => if i = 3 ∨ i = 7 then 9 else 0, 4, 0, 3, 1, true⟩ [1, 2, 3] =
        (CB_SUCCESS, cb') ∧
      cb'.count = 1 + 3 ∧
      readSpan cb'.buffer cb'.tail cb'.count = [9] ++ [1, 2, 3] ∧
      ([9] ++ [1, 2, 3] ≠ [] →
        circular_buffer_get_readable_region cb' = some (cb'.tail, cb'.count)) := by
  have hrepr : cbRepr
      ⟨fun i => if i = 3 ∨ i = 7 then 9 else 0, 4, 0, 3, 1, true⟩ [9] := by
    refine ⟨rfl, by decide, by decide, rfl, by decide, by decide, ?_⟩
    intro i hi
    have hi0 : i = 0 := by simpa using hi
    subst hi0
    exact ⟨rfl, rfl⟩
  exact write_then_readable_region _ [9] [1, 2, 3] hrepr (by decide) (by decide)

/-- C2: the audio callback is never invoked for a datagram that is shorter
than 28 bytes, or whose magic differs from the protocol constant, or whose
sub-protocol id (bits 5–7 of `sr_subprotocol`) is not audio, or whose codec
id (bits 4–7 of `format_codec`) is not PCM; the loop just continues (the
model's `none` — the loop body has no error channel to its caller). -/
theorem reject_short_magic_subproto_codec (cfg : vban_receiver_config_t)
    (pkt : List Nat)
    (h : pkt.length < VBAN_HEADER_SIZE ∨
      (parse_vban_header pkt).vban_magic ≠ VBAN_MAGIC_NUMBER ∨
      ((parse_vban_header pkt).sr_subprotocol &&& VBAN_SUBPROTOCOL_MASK) >>>
          VBAN_SUBPROTOCOL_SHIFT ≠ VBAN_SUBPROTOCOL_AUDIO >>> VBAN_SUBPROTOCOL_SHIFT ∨
      ((parse_vban_header pkt).format_codec &&& VBAN_CODEC_MASK) >>>
          VBAN_CODEC_SHIFT ≠ VBAN_CODEC_PCM >>> VBAN_CODEC_SHIFT) :
    vban_process_datagram cfg pkt = none := by
  unfold vban_process_datagram vban_dispatch_audio
  rcases h with h | h | h | h
  · rw [if_pos h]
  · by_cases hs : pkt.length < VBAN_HEADER_SIZE
    · rw [if_pos hs]
    · rw [if_neg hs, if_pos h]
  · by_cases hs : pkt.length < VBAN_HEADER_SIZE
    · rw [if_pos hs]
    · rw [if_neg hs]
      by_cases hm : (parse_vban_header pkt).vban_magic ≠ VBAN_MAGIC_NUMBER
      · rw [if_pos hm]
      · rw [if_neg hm]
        by_cases hn : cfg.expected_stream_name.getD 0 0 ≠ 0 ∧
          strncmp cfg.expected_stream_name
            (parse_vban_header pkt).stream_name VBAN_STREAM_NAME_MAX_LEN ≠ 0
        · rw [if_pos hn]
        · rw [if_neg hn, if_neg h]
  · by_cases hs : pkt.length < VBAN_HEADER_SIZE
    · rw [if_pos hs]
    · rw [if_neg hs]
      by_cases hm : (parse_vban_header pkt).vban_magic ≠ VBAN_MAGIC_NUMBER
      · rw [if_pos hm]
      · rw [if_neg hm]
        by_cases hn : cfg.expected_stream_name.getD 0 0 ≠ 0 ∧
          strncmp cfg.expected_stream_name
            (parse_vban_header pkt).stream_name VBAN_STREAM_NAME_MAX_LEN ≠ 0
        · rw [if_pos hn]
        · rw [if_neg hn]
          by_cases hsub : ((parse_vban_header pkt).sr_subprotocol &&&
              VBAN_SUBPROTOCOL_MASK) >>> VBAN_SUBPROTOCOL_SHIFT =
              VBAN_SUBPROTOCOL_AUDIO >>> VBAN_SUBPROTOCOL_SHIFT
          · rw [if_pos hsub]
            by_cases hcb : cfg.has_audio_callback
            · rw [if_pos hcb, if_neg h]
            · rw [if_neg hcb]
          · rw [if_neg hsub]

/-- Witness for C2: a 3-byte datagram is dropped. -/
theorem reject_short_magic_subproto_codec_witness :
    vban_process_datagram ⟨List.replicate 16 0, true⟩ [1, 2, 3] = none :=
  reject_short_magic_subproto_codec ⟨List.replicate 16 0, true⟩ [1, 2, 3]
    (Or.inl (by decide))

/-- Counterexample to C1 as stated: a packet whose stream-name field differs
from the configured 16-byte name (byte 12 is `88`, the configured array has
`0`) is nevertheless processed, because `strncmp` stops at the NUL that
terminates `"TestStream1"`. -/
theorem stream_name_exact_compare_counterexample :
    (parse_vban_header pkt_trailing_garbage_name).stream_name.getD 12 0 ≠
      cfgTestStream1.expected_stream_name.getD 12 0 ∧
    vban_process_datagram cfgTestStream1 pkt_trailing_garbage_name ≠ none := by
  decide

/-- C1 (amended): with a non-empty configured name, the filter compares with
C `strncmp` over at most 16 bytes: a packet with valid magic and sufficient
length is dropped exactly when the received name differs from the configured
name at some position up to and including the configured name's first NUL;
bytes after a matching NUL are ignored.  In particular `"TestStream1"` drops
`"OtherStream"` and accepts exactly `"TestStream1"` plus five NULs. -/
theorem stream_name_filter_strncmp (cfg : vban_receiver_config_t)
    (pkt : List Nat)
    (hlen : ¬ pkt.length < VBAN_HEADER_SIZE)
    (hmagic : (parse_vban_header pkt).vban_magic = VBAN_MAGIC_NUMBER) :
    (cfg.expected_stream_name.getD 0 0 ≠ 0 →
      strncmp cfg.expected_stream_name (parse_vban_header pkt).stream_name
        VBAN_STREAM_NAME_MAX_LEN ≠ 0 →
      vban_process_datagram cfg pkt = none) ∧
    (strncmp cfg.expected_stream_name (parse_vban_header pkt).stream_name
        VBAN_STREAM_NAME_MAX_LEN = 0 →
      vban_process_datagram cfg pkt = vban_dispatch_audio cfg pkt) := by
  unfold vban_process_datagram
  rw [if_neg hlen, if_neg (by omega)]
  constructor
  · intro hname hcmp
    rw [if_pos ⟨hname, hcmp⟩]
  · intro hcmp
    rw [if_neg (fun hc => hc.2 hcmp)]

/-- Witness for the amended C1: the `"TestStream1"` receiver drops the
`"OtherStream"` packet and accepts the exact-name packet. -/
theorem stream_name_filter_strncmp_witness :
    vban_process_datagram cfgTestStream1 pkt_other_stream = none ∧
    vban_process_datagram cfgTestStream1 pkt_exact_name =
      vban_dispatch_audio cfgTestStream1 pkt_exact_name := by
  constructor
  · exact (stream_name_filter_strncmp cfgTestStream1 pkt_other_stream
      (by decide) (by decide)).1 (by decide) (by decide)
  · exact (stream_name_filter_strncmp cfgTestStream1 pkt_exact_name
      (by decide) (by decide)).2 (by decide)

/-- C7: an audio/PCM packet that passes the magic, length and stream-name
checks but whose payload length differs from the advertised
`(samples)×(channels)×(bytes-per-component)` is still forwarded: the callback
receives the actual payload and the actual payload length, with the
size-mismatch warning logged; the packet is not dropped. -/
theorem size_mismatch_still_forwarded (cfg : vban_receiver_config_t)
    (pkt : List Nat)
    (hlen : ¬ pkt.length < VBAN_HEADER_SIZE)
    (hmagic : (parse_vban_header pkt).vban_magic = VBAN_MAGIC_NUMBER)
    (hname : cfg.expected_stream_name.getD 0 0 = 0 ∨
      strncmp cfg.expected_stream_name (parse_vban_header pkt).stream_name
        VBAN_STREAM_NAME_MAX_LEN = 0)
    (hsub : ((parse_vban_header pkt).sr_subprotocol &&& VBAN_SUBPROTOCOL_MASK)
        >>> VBAN_SUBPROTOCOL_SHIFT = VBAN_SUBPROTOCOL_AUDIO >>> VBAN_SUBPROTOCOL_SHIFT)
    (hcb : cfg.has_audio_callback = true)
    (hcodec : ((parse_vban_header pkt).format_codec &&& VBAN_CODEC_MASK)
        >>> VBAN_CODEC_SHIFT = VBAN_CODEC_PCM >>> VBAN_CODEC_SHIFT)
    (hmm : pkt.length - VBAN_HEADER_SIZE ≠
      expected_payload_size (parse_vban_header pkt)) :
    vban_process_datagram cfg pkt =
      some { header := parse_vban_header pkt
             audio_data := pkt.drop VBAN_HEADER_SIZE
             audio_data_len := pkt.length - VBAN_HEADER_SIZE
             size_mismatch_warned := true } := by
  unfold vban_process_datagram vban_dispatch_audio
  rw [if_neg hlen, if_neg (by omega),
    if_neg (by rcases hname with h | h
               exacts [fun hc => hc.1 h, fun hc => hc.2 h]),
    if_pos hsub, if_pos hcb, if_pos hcodec]
  have hw : decide (pkt.length - VBAN_HEADER_SIZE ≠
      expected_payload_size (parse_vban_header pkt)) = true := by
    simpa using hmm
  rw [hw]

/-- Witness for C7: the mismatched packet is forwarded with its actual 3-byte
payload. -/
theorem size_mismatch_still_forwarded_witness :
    vban_process_datagram ⟨List.replicate 16 0, true⟩ pkt_size_mismatch =
      some { header := parse_vban_header pkt_size_mismatch
             audio_data := pkt_size_mismatch.drop VBAN_HEADER_SIZE
             audio_data_len := pkt_size_mismatch.length - VBAN_HEADER_SIZE
             size_mismatch_warned := true } :=
  size_mismatch_still_forwarded ⟨List.replicate 16 0, true⟩ pkt_size_mismatch
    (by decide) (by decide) (Or.inl (by decide)) (by decide) rfl (by decide)
    (by decide)

/-- Full behaviour of the handoff loop on a represented buffer: it pushes one
32-byte descriptor per complete chunk, the descriptors' spans tile the queued
bytes in order, and the remainder (< 32 bytes) stays behind. -/
theorem chunk_handoff_loop_spec :
    ∀ (n : Nat) (l : List Nat) (cb : circular_buffer_t), l.length ≤ n →
    cbRepr cb l →
    (chunk_handoff_loop cb).1.buffer = cb.buffer ∧
    cbRepr (chunk_handoff_loop cb).1
      (l.drop (AUDIO_BUFFER_SIZE * (l.length / AUDIO_BUFFER_SIZE))) ∧
    (chunk_handoff_loop cb).2.length = l.length / AUDIO_BUFFER_SIZE ∧
    (∀ b ∈ (chunk_handoff_loop cb).2, b.size = AUDIO_BUFFER_SIZE) ∧
    ((chunk_handoff_loop cb).2.map
        (fun b => readSpan cb.buffer b.buffer b.size)).flatten =
      l.take (AUDIO_BUFFER_SIZE * (l.length / AUDIO_BUFFER_SIZE)) := by
  intro n
  induction n with
  | zero =>
    intro l cb hn hrepr
    have hl0 : l = [] := List.eq_nil_of_length_eq_zero (by omega)
    subst hl0
    have hgc : circular_buffer_get_count cb = 0 := by
      simp [circular_buffer_get_count, hrepr.1, hrepr.2.2.2.1]
    rw [chunk_handoff_loop, dif_neg (by rw [hgc]; simp [AUDIO_BUFFER_SIZE])]
    refine ⟨rfl, ?_, by simp, by simp, by simp⟩
    simpa using hrepr
  | succ n ih =>
    intro l cb hn hrepr
    have hgc : circular_buffer_get_count cb = l.length := by
      simp [circular_buffer_get_count, hrepr.1, hrepr.2.2.2.1]
    by_cases h32 : l.length < AUDIO_BUFFER_SIZE
    · rw [chunk_handoff_loop, dif_neg (by rw [hgc]; omega)]
      have hdiv : l.length / AUDIO_BUFFER_SIZE = 0 := Nat.div_eq_of_lt h32
      refine ⟨rfl, ?_, ?_, ?_, ?_⟩
      · rw [hdiv, Nat.mul_zero, List.drop_zero]
        exact hrepr
      · rw [hdiv]
        simp
      · intro b hb
        simp at hb
      · rw [hdiv, Nat.mul_zero, List.take_zero]
        simp
    · have hne : l ≠ [] := by
        intro he
        rw [he] at h32
        simp [AUDIO_BUFFER_SIZE] at h32
      have hcnt := hrepr.2.2.2.1
      obtain ⟨hregion, hspan⟩ := cbRepr_get_readable_region hrepr hne
      obtain ⟨hcs, hcrepr, hcbuf, hccap, hctail⟩ :=
        circular_buffer_consume_repr AUDIO_BUFFER_SIZE hrepr
          (by simp only [AUDIO_BUFFER_SIZE] at h32 ⊢; omega)
      rw [chunk_handoff_loop, dif_pos (by rw [hgc]; omega), hregion]
      dsimp only
      rw [if_neg (by rw [hcnt]; exact h32), if_neg (by rw [hcs]; simp)]
      have hlen' : (l.drop AUDIO_BUFFER_SIZE).length ≤ n := by
        rw [List.length_drop]
        simp only [AUDIO_BUFFER_SIZE] at h32 ⊢
        omega
      obtain ⟨ibuf, irepr, ilen, isize, ijoin⟩ :=
        ih (l.drop AUDIO_BUFFER_SIZE)
          (circular_buffer_consume cb AUDIO_BUFFER_SIZE).2 hlen' hcrepr
      have hdrop : (l.drop AUDIO_BUFFER_SIZE).length =
          l.length - AUDIO_BUFFER_SIZE := List.length_drop _ _
      refine ⟨by rw [ibuf, hcbuf], ?_, ?_, ?_, ?_⟩
      · have hdd : (List.drop AUDIO_BUFFER_SIZE l).drop
            (AUDIO_BUFFER_SIZE *
              ((l.drop AUDIO_BUFFER_SIZE).length / AUDIO_BUFFER_SIZE)) =
            l.drop (AUDIO_BUFFER_SIZE * (l.length / AUDIO_BUFFER_SIZE)) := by
          rw [List.drop_drop, hdrop]
          congr 1
          simp only [AUDIO_BUFFER_SIZE] at h32 ⊢
          omega
        rw [← hdd]
        exact irepr
      · dsimp only
        rw [List.length_cons, ilen, hdrop]
        simp only [AUDIO_BUFFER_SIZE] at h32 ⊢
        omega
      · intro b hb
        rcases List.mem_cons.mp hb with hb | hb
        · rw [hb]
        · exact isize b hb
      · dsimp only
        rw [List.map_cons, List.flatten_cons]
        have hchunk : readSpan cb.buffer cb.tail AUDIO_BUFFER_SIZE =
            l.take AUDIO_BUFFER_SIZE :=
          cbRepr_readSpan hrepr AUDIO_BUFFER_SIZE
            (by simp only [AUDIO_BUFFER_SIZE] at h32 ⊢; omega)
        have hmap : ((chunk_handoff_loop
              (circular_buffer_consume cb AUDIO_BUFFER_SIZE).2).2.map
                (fun b => readSpan cb.buffer b.buffer b.size)).flatten =
            (l.drop AUDIO_BUFFER_SIZE).take
              (AUDIO_BUFFER_SIZE *
                ((l.drop AUDIO_BUFFER_SIZE).length / AUDIO_BUFFER_SIZE)) := by
          rw [← hcbuf]
          exact ijoin
        rw [hchunk, hmap]
        have harith : AUDIO_BUFFER_SIZE * (l.length / AUDIO_BUFFER_SIZE) =
            AUDIO_BUFFER_SIZE + AUDIO_BUFFER_SIZE *
              ((l.drop AUDIO_BUFFER_SIZE).length / AUDIO_BUFFER_SIZE) := by
          rw [hdrop]
          simp only [AUDIO_BUFFER_SIZE] at h32 ⊢
          omega
        rw [harith, List.take_add]

/-- C8: from an empty ring buffer, a 128-byte payload whose header advertises
48000 Hz, mono, 16-bit integer samples produces exactly 4 chunk descriptors of
32 bytes each on the handoff queue; their spans (read at push time from the
ring buffer's backing store) tile the payload in original order, and the ring
buffer is empty afterwards. -/
theorem receive_callback_chunks_128 (payload : List Nat)
    (hlen : payload.length = 128) (cb : circular_buffer_t)
    (hrepr : cbRepr cb []) (hcap : 128 ≤ cb.capacity)
    (header : vban_header_t)
    (hsr : vban_get_sr_from_index (header.sr_subprotocol &&& VBAN_SR_INDEX_MASK) =
      SAMPLE_RATE)
    (hch : header.channels_m1 = 0)
    (hdt : header.format_codec &&& VBAN_DATATYPE_MASK = VBAN_DATATYPE_INT16) :
    (vban_receive_callback cb header payload).2.length = 4 ∧
    (∀ b ∈ (vban_receive_callback cb header payload).2, b.size = 32) ∧
    ((vban_receive_callback cb header payload).2.map
        (fun b => readSpan (vban_receive_callback cb header payload).1.buffer
          b.buffer b.size)).flatten = payload ∧
    (vban_receive_callback cb header payload).1.count = 0 := by
  obtain ⟨hws, hwrepr, hwtl, hwcap⟩ :=
    circular_buffer_write_repr payload hrepr (by simp [hlen]; omega)
  rw [List.nil_append] at hwrepr
  unfold vban_receive_callback
  rw [if_neg (by simp [hsr]), if_neg (by simp [hch, CHANNEL_COUNT]),
    if_neg (by simp [hdt]), if_neg (by rw [hws]; simp)]
  obtain ⟨ibuf, irepr, ilen, isize, ijoin⟩ :=
    chunk_handoff_loop_spec 128 payload (circular_buffer_write cb payload).2
      (by omega) hwrepr
  have h128 : AUDIO_BUFFER_SIZE * (payload.length / AUDIO_BUFFER_SIZE) =
      payload.length := by
    rw [hlen]
    decide
  refine ⟨?_, ?_, ?_, ?_⟩
  · rw [ilen, hlen]
    decide
  · intro b hb
    exact isize b hb
  · rw [ibuf]
    rw [h128, List.take_length] at ijoin
    exact ijoin
  · have hcnt' := irepr.2.2.2.1
    rw [h128, List.drop_length] at hcnt'
    simpa using hcnt'

/-- Witness for C8 at a concrete input: payload `0,1,…,127` into the freshly
initialized buffer of `main.c` (capacity 2×1436) with the matching header. -/
theorem receive_callback_chunks_128_witness :
    (vban_receive_callback (circular_buffer_init 2872).2
        ⟨0x4E414256, 3, 63, 0, 1, List.replicate 16 0, 0⟩
        (List.range 128)).2.length = 4 ∧
    (∀ b ∈ (vban_receive_callback (circular_buffer_init 2872).2
        ⟨0x4E414256, 3, 63, 0, 1, List.replicate 16 0, 0⟩
        (List.range 128)).2, b.size = 32) ∧
    ((vban_receive_callback (circular_buffer_init 2872).2
        ⟨0x4E414256, 3, 63, 0, 1, List.replicate 16 0, 0⟩
        (List.range 128)).2.map
      (fun b => readSpan (vban_receive_callback (circular_buffer_init 2872).2
          ⟨0x4E414256, 3, 63, 0, 1, List.replicate 16 0, 0⟩
          (List.range 128)).1.buffer b.buffer b.size)).flatten =
      List.range 128 ∧
    (vban_receive_callback (circular_buffer_init 2872).2
        ⟨0x4E414256, 3, 63, 0, 1, List.replicate 16 0, 0⟩
        (List.range 128)).1.count = 0 :=
  receive_callback_chunks_128 (List.range 128) (by simp)
    (circular_buffer_init 2872).2 (circular_buffer_init_repr 2872 (by norm_num)).2
    (by norm_num [circular_buffer_init])
    ⟨0x4E414256, 3, 63, 0, 1, List.replicate 16 0, 0⟩
    (by decide) rfl (by decide)

/-- C9: in every iteration of the chunk-handoff loop, the descriptor pushed
onto the cross-thread queue carries exactly the pointer returned by
`circular_buffer_get_readable_region` — an alias into the ring buffer's
backing store, not a private copy — and `circular_buffer_consume` advances the
read cursor past that 32-byte region immediately after the push: the rest of
the loop (and everything after the callback) runs on the consumed state. -/
theorem chunk_descriptor_aliases_ring_storage (cb : circular_buffer_t)
    (h32 : AUDIO_BUFFER_SIZE ≤ circular_buffer_get_count cb) :
    ∃ off readable,
      circular_buffer_get_readable_region cb = some (off, readable) ∧
      off = cb.tail ∧
      (circular_buffer_consume cb AUDIO_BUFFER_SIZE).1 = CB_SUCCESS ∧
      (circular_buffer_consume cb AUDIO_BUFFER_SIZE).2.tail =
        (cb.tail + AUDIO_BUFFER_SIZE) % cb.capacity ∧
      chunk_handoff_loop cb =
        ((chunk_handoff_loop
            (circular_buffer_consume cb AUDIO_BUFFER_SIZE).2).1,
         { buffer := off, size := AUDIO_BUFFER_SIZE } ::
           (chunk_handoff_loop
             (circular_buffer_consume cb AUDIO_BUFFER_SIZE).2).2) := by
  have hA : AUDIO_BUFFER_SIZE = 32 := rfl
  have hinit : ¬ cb.is_initialized = false := by
    intro hf
    simp only [circular_buffer_get_count, if_pos hf] at h32
    omega
  have hcount : AUDIO_BUFFER_SIZE ≤ cb.count := by
    simpa only [circular_buffer_get_count, if_neg hinit] using h32
  have hcons : circular_buffer_consume cb AUDIO_BUFFER_SIZE =
      (CB_SUCCESS,
       { cb with tail := (cb.tail + AUDIO_BUFFER_SIZE) % cb.capacity
                 count := cb.count - AUDIO_BUFFER_SIZE }) := by
    unfold circular_buffer_consume
    rw [if_neg hinit, if_neg (by omega), if_neg (by omega)]
  have hcs : (circular_buffer_consume cb AUDIO_BUFFER_SIZE).1 = CB_SUCCESS := by
    rw [hcons]
  have hregion : circular_buffer_get_readable_region cb =
      some (cb.tail, cb.count) := by
    unfold circular_buffer_get_readable_region
    rw [if_neg hinit, if_neg (by omega)]
  refine ⟨cb.tail, cb.count, hregion, rfl, hcs, ?_, ?_⟩
  · rw [hcons]
  · conv_lhs => rw [chunk_handoff_loop]
    rw [dif_pos h32, hregion]
    dsimp only
    rw [if_neg (by omega), if_neg (by rw [hcs]; simp)]

/-- Witness for C9 at a concrete state: capacity 64, tail 0, 32 bytes
occupied. -/
theorem chunk_descriptor_aliases_ring_storage_witness :
    ∃ off readable,
      circular_buffer_get_readable_region ⟨fun _ => 0, 64, 32, 0, 32, true⟩ =
        some (off, readable) ∧
      off = (⟨fun _ => 0, 64, 32, 0, 32, true⟩ : circular_buffer_t).tail ∧
      (circular_buffer_consume ⟨fun _ => 0, 64, 32, 0, 32, true⟩
        AUDIO_BUFFER_SIZE).1 = CB_SUCCESS ∧
      (circular_buffer_consume ⟨fun _ => 0, 64, 32, 0, 32, true⟩
        AUDIO_BUFFER_SIZE).2.tail =
        ((⟨fun _ => 0, 64, 32, 0, 32, true⟩ : circular_buffer_t).tail +
          AUDIO_BUFFER_SIZE) % 64 ∧
      chunk_handoff_loop ⟨fun _ => 0, 64, 32, 0, 32, true⟩ =
        ((chunk_handoff_loop (circular_buffer_consume
            ⟨fun _ => 0, 64, 32, 0, 32, true⟩ AUDIO_BUFFER_SIZE).2).1,
         { buffer := off, size := AUDIO_BUFFER_SIZE } ::
           (chunk_handoff_loop (circular_buffer_consume
             ⟨fun _ => 0, 64, 32, 0, 32, true⟩ AUDIO_BUFFER_SIZE).2).2) :=
  chunk_descriptor_aliases_ring_storage ⟨fun _ => 0, 64, 32, 0, 32, true⟩
    (by decide)

/-- C10: on a valid sender handle with non-null data, positive sample count,
supported data type and in-range payload, the frame counter increments by
exactly one (mod 2³²) for every outcome of the datagram send — including when
`sendto` fails and the call returns the send-failure error, so failed sends
consume frame numbers. -/
theorem frame_counter_increments_even_on_send_failure
    (frame_counter : Nat) (fmt : vban_audio_format_t) (num_samples : Nat)
    (sent_len : Int)
    (hns : 0 < num_samples)
    (hdt : vban_get_data_type_size fmt.data_type ≠ 0)
    (hsize : num_samples * fmt.num_channels *
      vban_get_data_type_size fmt.data_type ≤ VBAN_MAX_PAYLOAD_SIZE) :
    (vban_audio_send true frame_counter fmt false num_samples sent_len).2 =
      (frame_counter + 1) % 2 ^ 32 ∧
    (sent_len < 0 →
      (vban_audio_send true frame_counter fmt false num_samples sent_len).1 =
        ESP_ERR_VBAN_SEND_FAIL) := by
  unfold vban_audio_send
  rw [if_neg (by simp), if_neg (by simp; omega), if_neg hdt,
    if_neg (by omega)]
  constructor
  · split_ifs <;> rfl
  · intro hneg
    rw [if_pos hneg]

/-- Witness for C10: 64 16-bit mono samples, `sendto` returning −1. -/
theorem frame_counter_increments_even_on_send_failure_witness :
    (vban_audio_send true 5 ⟨3, 1, 1⟩ false 64 (-1)).2 = (5 + 1) % 2 ^ 32 ∧
    ((-1 : Int) < 0 →
      (vban_audio_send true 5 ⟨3, 1, 1⟩ false 64 (-1)).1 =
        ESP_ERR_VBAN_SEND_FAIL) :=
  frame_counter_increments_even_on_send_failure 5 ⟨3, 1, 1⟩ 64 (-1)
    (by decide) (by decide) (by decide)

end VbanDemo
